import Mathlib

/-!
Verification of the label-driven state-reconciliation engine of the
github-webhook-server repository, shallowly embedded from
src/webhook_server_container/libs/github_api.py.

Strings are modelled as Lean `String` (a wrapper around `List Char`);
Python string primitives (`strip`, `lower`, `in`, `startswith`,
`split`, `replace`) are embedded below as functions on the underlying
character lists, following CPython semantics.  Side effects on the
hosting platform (label attach/detach, commit-status writes, comments,
reactions) are reified as an explicit `Effect` list returned next to
the updated label set, so that idempotence and "no mutation" claims
are statements about the returned effect list.
-/

/- ---------------- Python string primitives ---------------- -/

/-- Characters removed by Python `str.strip()` (the `str.isspace` set
restricted to ASCII, which is what label names can contain). -/
def isPySpace (c : Char) : Bool :=
  c = ' ' || c = '\t' || c = '\n' || c = '\r' || c = '\x0b' || c = '\x0c'

/-- Python `s.strip()`: drop leading and trailing whitespace. -/
def pyStrip (s : String) : String :=
  String.mk (((s.data.dropWhile isPySpace).reverse.dropWhile isPySpace).reverse)

/-- Python `s.lower()` (ASCII case folding, as used on label names). -/
def pyLower (s : String) : String :=
  String.mk (s.data.map Char.toLower)

/-- Python `needle in hay` on strings: substring test. -/
def strIn (needle hay : String) : Bool :=
  decide (needle.data <:+: hay.data)

/-- Python `s.startswith(pre)`. -/
def strStarts (pre s : String) : Bool :=
  decide (pre.data <+: s.data)

/-- Python `s.split(sep)[-1]` for a one-character separator: the suffix
after the last occurrence of `c` (the whole string when `c` is absent). -/
def lastSeg (c : Char) (s : String) : String :=
  String.mk ((s.data.reverse.takeWhile (fun x => decide (x ≠ c))).reverse)

/-- Python `command.split(" ", 1)[0]`: the part before the first space. -/
def cmdName (s : String) : String :=
  String.mk (s.data.takeWhile (fun c => decide (c ≠ ' ')))

/-- Python `command.split(" ", 1)[1] if len(...) > 1 else ""`: the part
after the first space, or the empty string when there is no space. -/
def cmdArgs (s : String) : String :=
  String.mk ((s.data.dropWhile (fun c => decide (c ≠ ' '))).tail)

/-- Python `s.split()` (no separator): whitespace-run split, dropping
empty chunks. -/
def pySplitWS (s : String) : List String :=
  ((s.data.splitOnP isPySpace).filter (fun l => decide (l ≠ []))).map String.mk

/-- Python `s.split("\n")`, used to count the lines of a comment body. -/
def splitLines (s : String) : List (List Char) :=
  s.data.splitOnP (fun c => decide (c = '\n'))

/-- Python `m.replace(tok, rep)` on character lists: replace the
leftmost, non-overlapping occurrences of `tok` by `rep`, scanning left
to right (CPython semantics, including the empty-`tok` case which
inserts `rep` between all characters and at both ends). -/
def pyReplace (tok rep : List Char) : List Char → List Char
  | [] => if tok = [] then rep else []
  | c :: rest =>
    if h : tok ≠ [] ∧ tok.isPrefixOf (c :: rest) then
      rep ++ pyReplace tok rep ((c :: rest).drop tok.length)
    else if tok = [] then
      rep ++ c :: pyReplace tok rep rest
    else
      c :: pyReplace tok rep rest
termination_by m => m.length
decreasing_by
  · have ht : 0 < tok.length := List.length_pos.mpr h.1
    simp only [List.length_drop, List.length_cons]
    omega
  · simp
  · simp

/-- Python `s.replace(tok, rep)` on `String`. -/
def pyReplaceStr (tok rep s : String) : String :=
  String.mk (pyReplace tok.data rep.data s.data)

/-- A string all of whose characters are non-whitespace (true of GitHub
user names, branch names and label names). -/
def spaceFree (s : String) : Prop :=
  ∀ c ∈ s.data, isPySpace c = false

instance (s : String) : Decidable (spaceFree s) := by
  unfold spaceFree; infer_instance

/- ---------------- Constants ---------------- -/

/-- Modelled from the spec: label prefix `Approved-By-<user>` from the
section-6 label taxonomy (constant `APPROVED_BY_LABEL_PREFIX` of the
module webhook_server_container/utils/constants.py, which is not under
src/). -/
def APPROVED_BY_PRE : String := "Approved-By-"

/-- Modelled from the spec: label prefix `Changes-requested-By-<user>`
from the section-6 label taxonomy (constant
`CHANGED_REQUESTED_BY_LABEL_PREFIX` of the missing constants module). -/
def CHANGED_REQUESTED_BY_PRE : String := "Changes-requested-By-"

/-- Modelled from the spec: label prefix `Commented-By-<user>` from the
section-6 label taxonomy (constant `COMMENTED_BY_LABEL_PREFIX` of the
missing constants module). -/
def COMMENTED_BY_PRE : String := "Commented-By-"

/-- Modelled from the spec: label prefix `cherry-pick-<branch>` from the
section-6 label taxonomy (constant `CHERRY_PICK_LABEL_PREFIX` of the
missing constants module). -/
def CHERRY_PICK_PRE : String := "cherry-pick-"

/-- Modelled from the spec: the `cherry-picked` label (constant
`CHERRY_PICKED_LABEL_PREFIX` of the missing constants module). -/
def CHERRY_PICKED_STR : String := "cherry-picked"

/-- Modelled from the spec: the `verified` label and status context. -/
def VERIFIED_LABEL_STR : String := "verified"

/-- Modelled from the spec: the `hold` label. -/
def HOLD_LABEL_STR : String := "hold"

/-- Modelled from the spec: the `wip` label. -/
def WIP_STR : String := "wip"

/-- Modelled from the spec: the `lgtm` pseudo-label / review state. -/
def LGTM_STR : String := "lgtm"

/-- Modelled from the spec: the `can-be-merged` label and status context. -/
def CAN_BE_MERGED_STR : String := "can-be-merged"

/-- Modelled from the spec: the `needs-rebase` label. -/
def NEEDS_REBASE_LABEL_STR : String := "needs-rebase"

/-- Modelled from the spec: commit-status state `success`. -/
def SUCCESS_STR : String := "success"

/-- Modelled from the spec: commit-status state `pending`. -/
def PENDING_STR : String := "pending"

/-- Modelled from the spec: commit-status state `failure`. -/
def FAILURE_STR : String := "failure"

/-- Modelled from the spec: the add action string (`ADD_STR` of the
missing constants module). -/
def ADD_STR : String := "add"

/-- Modelled from the spec: the remove action string (`DELETE_STR` of
the missing constants module). -/
def DELETE_STR : String := "delete"

/-- Modelled from the spec: the recognized user-label vocabulary
(`USER_LABELS_DICT` keys of the missing constants module): the labels a
user may toggle by comment, per the welcome message and section 6. -/
def USER_LABELS : List String := ["hold", "verified", "wip", "lgtm"]

/-- Modelled from the spec: the statically known labels
(`STATIC_LABELS_DICT` keys of the missing constants module): the fixed
label strings of the section-6 taxonomy; prefixed labels are dynamic. -/
def STATIC_LABELS : List String :=
  ["verified", "hold", "wip", "lgtm", "needs-rebase", "can-be-merged",
   "cherry-picked"]

/- ---------------- Effects (collaborator-interface calls) ---------------- -/

/-- One call issued to the hosting-platform collaborator interface. -/
inductive Effect where
  /-- `pull_request.add_to_labels(label)` -/
  | attach (label : String)
  /-- `pull_request.remove_from_labels(label)` -/
  | detach (label : String)
  /-- `repository.get_label(...).edit(...)` or `repository.create_label(...)`:
  ensure the label exists on the repository with its color. -/
  | ensureRepoLabel (label : String)
  /-- `last_commit.create_status(state=..., context=...)` -/
  | status (context state : String)
  /-- `pull_request.create_issue_comment(body)` -/
  | comment (body : String)
  /-- `create_comment_reaction(...)` -/
  | reaction
  /-- `pull_request.edit(title=...)` -/
  | editTitle (title : String)
  /-- abstract marker: a re-test flow (tox / build-container /
  python-module-install) is launched; its internal status writes are
  outside the scope of the claims -/
  | runRetest (what : String)
  /-- abstract marker: the cherry-pick flow for one target branch is
  launched (modelled separately by `cherryPickStep`) -/
  | cherryPickFlow (branch : String)
  /-- abstract marker: `_build_and_push_container` is launched -/
  | buildAndPush
deriving DecidableEq, Repr

/-- Returns true for the label-set mutations among the effects. -/
def Effect.isLabelMutation : Effect → Bool
  | .attach _ => true
  | .detach _ => true
  | _ => false

/- ---------------- Label primitives (GitHubApi._add_label / _remove_label) ---------------- -/

/-- GitHubApi._add_label: strip the name; refuse names longer than 49
characters; skip when already present; for non-static labels first
ensure the repository-level label exists (color bookkeeping elided),
then attach.  Returns the updated label set and the issued effects. -/
def _add_label (labels : List String) (label : String) :
    List String × List Effect :=
  let l := pyStrip label
  if 49 < l.length then (labels, [])
  else if l ∈ labels then (labels, [])
  else if l ∈ STATIC_LABELS then (labels ++ [l], [.attach l])
  else (labels ++ [l], [.ensureRepoLabel l, .attach l])

/-- GitHubApi._remove_label: detach when present, otherwise only log a
warning (no effect). -/
def _remove_label (labels : List String) (label : String) :
    List String × List Effect :=
  if label ∈ labels then
    (labels.filter (fun lb => decide (lb ≠ label)), [.detach label])
  else (labels, [])

/- ---------------- Size label (GitHubApi.add_size_label) ---------------- -/

/-- The tier chosen by GitHubApi.add_size_label from
`additions + deletions`. -/
def sizeTier (size : Nat) : String :=
  if size < 20 then "XS"
  else if size < 50 then "S"
  else if size < 100 then "M"
  else if size < 300 then "L"
  else if size < 500 then "XL"
  else "XXL"

/-- GitHubApi.add_size_label: attach `size/<tier>` for
`additions + deletions`. -/
def add_size_label (labels : List String) (additions deletions : Nat) :
    List String × List Effect :=
  _add_label labels ("size/" ++ sizeTier (additions + deletions))

/- ---------------- Reviewer state tracker (GitHubApi.manage_reviewed_by_label) ---------------- -/

/-- The tail of GitHubApi.manage_reviewed_by_label once `label_prefix`
and `label_to_remove` are fixed: on `add`, attach the reviewer label
and then detach `label_to_remove` when one was recorded; on `delete`,
detach the reviewer label; other actions do nothing. -/
def applyReviewer (labels : List String) (reviewer_label : String)
    (label_to_remove : Option String) (action : String) :
    List String × List Effect :=
  if action = ADD_STR then
    let r1 := _add_label labels reviewer_label
    match label_to_remove with
    | some lr =>
      let r2 := _remove_label r1.1 lr
      (r2.1, r1.2 ++ r2.2)
    | none => r1
  else if action = DELETE_STR then
    _remove_label labels reviewer_label
  else (labels, [])

/-- GitHubApi.manage_reviewed_by_label: per-reviewer review-state
tracking.  `approved`/`lgtm` by the pull-request owner is a no-op;
otherwise `approved`/`lgtm` records `Approved-By-<user>` and schedules
removal of `Changes-requested-By-<user>` when present;
`changes_requested` records `Changes-requested-By-<user>` and schedules
removal of `Approved-By-<user>` when present; `commented` records
`Commented-By-<user>`; any other state is logged and ignored. -/
def manage_reviewed_by_label (pr_owner : String) (labels : List String)
    (review_state action reviewed_user : String) :
    List String × List Effect :=
  if review_state = "approved" ∨ review_state = LGTM_STR then
    if pr_owner = reviewed_user then (labels, [])
    else
      let ltr :=
        if CHANGED_REQUESTED_BY_PRE ++ reviewed_user ∈ labels then
          some (CHANGED_REQUESTED_BY_PRE ++ reviewed_user)
        else none
      applyReviewer labels (APPROVED_BY_PRE ++ reviewed_user) ltr action
  else if review_state = "changes_requested" then
    let ltr :=
      if APPROVED_BY_PRE ++ reviewed_user ∈ labels then
        some (APPROVED_BY_PRE ++ reviewed_user)
      else none
    applyReviewer labels (CHANGED_REQUESTED_BY_PRE ++ reviewed_user) ltr action
  else if review_state = "commented" then
    applyReviewer labels (COMMENTED_BY_PRE ++ reviewed_user) none action
  else (labels, [])

/- ---------------- Merge-eligibility evaluator (GitHubApi.check_if_can_be_merged) ---------------- -/

/-- A commit status entry as returned by `last_commit.get_statuses()`. -/
structure CommitStatus where
  context : String
  state : String
  updated_at : Nat
deriving DecidableEq, Repr

/-- One step of building `_final_statuses`: Python-dict upsert keyed by
context, replacing the stored entry only when the new `updated_at` is
strictly greater. -/
def upsertStatus (acc : List CommitStatus) (s : CommitStatus) :
    List CommitStatus :=
  if acc.any (fun e => e.context == s.context) then
    acc.map (fun e =>
      if e.context = s.context ∧ s.updated_at > e.updated_at then s else e)
  else acc ++ [s]

/-- The `_final_statuses` mapping of check_if_can_be_merged: statuses
other than the `can-be-merged` context itself, deduplicated by context
keeping the latest `updated_at`. -/
def finalStatuses (statuses : List CommitStatus) : List CommitStatus :=
  (statuses.filter (fun s => decide (s.context ≠ CAN_BE_MERGED_STR))).foldl
    upsertStatus []

/-- The per-label test that breaks the label loop of
check_if_can_be_merged as not-mergeable:
`CHANGED_REQUESTED_BY_LABEL_PREFIX.lower() in _label.lower()`. -/
def crHit (l : String) : Bool :=
  strIn (pyLower CHANGED_REQUESTED_BY_PRE) (pyLower l)

/-- The per-label test that breaks the label loop of
check_if_can_be_merged as mergeable:
`APPROVED_BY_LABEL_PREFIX.lower() in _label.lower()` with
`_label.split("-")[-1]` a member of the approvers list. -/
def apHit (approvers : List String) (l : String) : Bool :=
  strIn (pyLower APPROVED_BY_PRE) (pyLower l) && decide (lastSeg '-' l ∈ approvers)

/-- The label loop of check_if_can_be_merged: scan the labels in
order; the first label matching `crHit` decides not-mergeable, the
first matching `apHit` decides mergeable; no match leaves the initial
not-mergeable verdict. -/
def scanApproval (approvers : List String) : List String → Option Bool
  | [] => none
  | l :: rest =>
    if crHit l then some false
    else if apHit approvers l then some true
    else scanApproval approvers rest

/-- Result of one run of the merge-eligibility evaluator. -/
structure EvalOut where
  mergeable : Bool
  labels : List String
  effects : List Effect
deriving DecidableEq, Repr

/-- The Boolean verdict computed by GitHubApi.check_if_can_be_merged:
the `_can_be_merged` flag is true exactly when the gate holds
(`verified` label present, `mergeable_state != "behind"`, every
check-run conclusion equal to `success`, every latest-by-timestamp
status other than `can-be-merged` equal to `success`, `hold` label
absent) and the label loop (`scanApproval`) breaks on an approval. -/
def mergeVerdict (labels : List String) (mergeable_state : String)
    (checkRunConclusions : List (Option String))
    (statuses : List CommitStatus) (approvers : List String) : Bool :=
  decide (VERIFIED_LABEL_STR ∈ labels)
    && decide (mergeable_state ≠ "behind")
    && checkRunConclusions.all (fun c => c == some SUCCESS_STR)
    && (finalStatuses statuses).all (fun e => e.state == SUCCESS_STR)
    && decide (HOLD_LABEL_STR ∉ labels)
    && (scanApproval approvers labels == some true)

/-- GitHubApi.check_if_can_be_merged: the merge-eligibility evaluator.
On a true verdict: attach `can-be-merged` and write the merge-check
`success` status; otherwise: detach `can-be-merged` when present and
write the merge-check `pending` status. -/
def check_if_can_be_merged (labels : List String) (mergeable_state : String)
    (checkRunConclusions : List (Option String))
    (statuses : List CommitStatus) (approvers : List String) : EvalOut :=
  if mergeVerdict labels mergeable_state checkRunConclusions statuses approvers then
    let r := _add_label labels CAN_BE_MERGED_STR
    ⟨true, r.1, r.2 ++ [.status CAN_BE_MERGED_STR SUCCESS_STR]⟩
  else
    let r := _remove_label labels CAN_BE_MERGED_STR
    ⟨false, r.1, r.2 ++ [.status CAN_BE_MERGED_STR PENDING_STR]⟩

/- ---------------- Cherry-pick workflow (GitHubApi._cherry_pick) ---------------- -/

/-- Result of `run_command` (`(ok, out, err)`). -/
structure RunResult where
  ok : Bool
  out : String
  err : String
deriving DecidableEq, Repr

/-- The five-command manual recovery recipe embedded in the
`_issue_from_err` comment of GitHubApi._cherry_pick (checkout target,
pull, new branch, cherry-pick the commit hash, push). -/
def recovery_recipe (commit_hash target_branch local_branch : String) :
    String :=
  "git checkout " ++ target_branch ++
  "\ngit pull origin " ++ target_branch ++
  "\ngit checkout -b " ++ local_branch ++
  "\ngit cherry-pick " ++ commit_hash ++
  "\ngit push origin " ++ local_branch

/-- The body of the single comment posted by `_issue_from_err` in
GitHubApi._cherry_pick; `local_branch` is
`f"{pull_request.head.ref}-{source_branch}"`. -/
def recovery_comment (commit_hash target_branch head_ref : String) : String :=
  "**Manual cherry-pick is needed**\nCherry pick failed for " ++
  commit_hash ++ " to " ++ target_branch ++
  ":\nTo cherry-pick run:\n```\n" ++
  recovery_recipe commit_hash target_branch (head_ref ++ "-" ++ target_branch) ++
  "\n```"

/-- GitHubApi._cherry_pick: run `git cherry-pick <hash>`, then
`git push origin <new branch>`, then `hub pull-request ...`; the first
failing step posts the recovery comment and yields failure; an
unexpected exception (`raised`) is caught and routed through the same
comment.  Returns the posted comments and the success flag. -/
def cherryPickStep (commit_hash head_ref target_branch : String)
    (cherry_pick_res push_res pr_res : RunResult)
    (raised : Option String) : List String × Bool :=
  match raised with
  | some _ => ([recovery_comment commit_hash target_branch head_ref], false)
  | none =>
    if cherry_pick_res.ok = false then
      ([recovery_comment commit_hash target_branch head_ref], false)
    else if push_res.ok = false then
      ([recovery_comment commit_hash target_branch head_ref], false)
    else if pr_res.ok = false then
      ([recovery_comment commit_hash target_branch head_ref], false)
    else ([], true)

/-- The merged-pull-request loop of
GitHubApi.process_pull_request_webhook_data: for every label starting
with the cherry-pick prefix, run the cherry-pick flow for the target
branch obtained by deleting the prefix; `outcome` abstracts the
per-target flow and yields its success flag.  Every matching label is
processed, whatever the outcomes of the others. -/
def process_merged_cherry_picks (labels : List String)
    (outcome : String → Bool) : List (String × Bool) :=
  labels.filterMap (fun l =>
    if strStarts CHERRY_PICK_PRE l then
      some (pyReplaceStr CHERRY_PICK_PRE "" l,
            outcome (pyReplaceStr CHERRY_PICK_PRE "" l))
    else none)

/-- Counts the lines of a comment body that are git commands. -/
def gitLineCount (body : String) : Nat :=
  (splitLines body).countP (fun l => "git ".data.isPrefixOf l)

/- ---------------- Comment commands (GitHubApi.user_commands / label_by_user_comment) ---------------- -/

/-- The `supported_user_labels_str` bullet list of the welcome and
rejection messages. -/
def supported_user_labels_str : String :=
  String.join (USER_LABELS.map (fun label => " * " ++ label ++ "\n"))

/-- The rejection comment body of GitHubApi.label_by_user_comment for a
label name outside the recognized vocabulary. -/
def labelRejectBody (user_request : String) : String :=
  "\nLabel " ++ user_request ++
  " is not a predefined one, will not be added / removed.\nAvailable labels:\n\n"
  ++ supported_user_labels_str ++ "\n"

/-- GitHubApi.label_by_user_comment: validate the requested name
against the recognized vocabulary by prefix
(`user_request.startswith(label_name)`); reject with a comment when no
vocabulary entry is a prefix of the request; otherwise react, route
`lgtm` through the reviewer tracker, and attach or detach the
requested label. -/
def label_by_user_comment (pr_owner : String) (labels : List String)
    (user_request : String) (remove : Bool) (reviewed_user : String) :
    List String × List Effect :=
  if ¬ USER_LABELS.any (fun label_name => strStarts label_name user_request) then
    (labels, [.comment (labelRejectBody user_request)])
  else
    let r1 :=
      if user_request = LGTM_STR then
        manage_reviewed_by_label pr_owner labels LGTM_STR
          (if remove then DELETE_STR else ADD_STR) reviewed_user
      else (labels, [])
    let r2 :=
      if remove then _remove_label r1.1 user_request
      else _add_label r1.1 user_request
    (r2.1, [Effect.reaction] ++ r1.2 ++ r2.2)

/-- The cherry-pick comment-command branch of GitHubApi.user_commands:
react; comment about non-existing target branches; when the pull
request is not yet merged, comment and attach a
`cherry-pick-<branch>` label per requested branch (the code adds every
requested branch to the processed set, existing or not); when already
merged, launch the cherry-pick flow per branch. -/
def cherryPickCommand (labels : List String) (merged : Bool)
    (branch_exists : String → Bool) (args : String) :
    List String × List Effect :=
  let targets := pySplitWS args
  let missing_msg := String.join ((targets.filter
    (fun t => !(branch_exists t))).map
      (fun t => "Target branch `" ++ t ++ "` does not exist\n"))
  let missing_effects : List Effect :=
    if missing_msg ≠ "" then [.comment missing_msg] else []
  let exist_targets := targets.eraseDups
  if exist_targets ≠ [] then
    if merged = false then
      let cp_labels := exist_targets.map (fun t => CHERRY_PICK_PRE ++ t)
      let r := cp_labels.foldl (fun acc l =>
        let r1 := _add_label acc.1 l
        (r1.1, acc.2 ++ r1.2)) (labels, [])
      (r.1, [Effect.reaction] ++ missing_effects ++
        [.comment "cherry-pick requested"] ++ r.2)
    else
      (labels, [Effect.reaction] ++ missing_effects ++
        exist_targets.map Effect.cherryPickFlow)
  else (labels, [Effect.reaction] ++ missing_effects)

/-- GitHubApi.user_commands: dispatch one comment command.  Commands
containing `sonarsource.github.io` are ignored; `retest` and
`cherry-pick` require an argument; `retest` launches the named re-test
flow; `build-and-push-container` launches the container flow when
configured; `wip` toggles the wip label and the title marker; every
other name is a label-toggle request routed through
label_by_user_comment, with a trailing `cancel` argument meaning
removal. -/
def user_commands (logPfx : String)
    (tox_enabled build_cfg pypi_cfg merged : Bool)
    (branch_exists : String → Bool) (pr_owner pr_title : String)
    (labels : List String) (command reviewed_user : String) :
    List String × List Effect :=
  if strIn "sonarsource.github.io" command then (labels, [])
  else
    let name := cmdName command
    let args := cmdArgs command
    let remove := args = "cancel"
    if name = "retest" ∨ name = "cherry-pick" then
      if args = "" then
        (labels,
         [.comment (logPfx ++ " retest/cherry-pick requires an argument")])
      else if name = "cherry-pick" then
        cherryPickCommand labels merged branch_exists args
      else if args = "tox" then
        if tox_enabled = false then
          (labels, [.comment (logPfx ++ " Tox is not enabled.")])
        else
          (labels, [Effect.reaction, .status "tox" PENDING_STR,
                    .runRetest "tox"])
      else if args = "build-container" then
        if build_cfg then
          (labels, [Effect.reaction, .status "build-container" PENDING_STR,
                    .runRetest "build-container"])
        else
          (labels, [.comment (logPfx ++ " No build-container configured")])
      else if args = "python-module-install" then
        if pypi_cfg = false then
          (labels, [.comment (logPfx ++ " No pypi configured")])
        else
          (labels,
           [Effect.reaction, .status "python-module-install" PENDING_STR,
            .runRetest "python-module-install"])
      else (labels, [])
    else if name = "build-and-push-container" then
      if build_cfg then (labels, [Effect.reaction, .buildAndPush])
      else
        (labels,
         [.comment (logPfx ++ " No build-and-push-container configured")])
    else if name = WIP_STR then
      if remove then
        let r := _remove_label labels WIP_STR
        (r.1, [Effect.reaction] ++ r.2 ++
          [.editTitle (pyReplaceStr "WIP:" "" pr_title)])
      else
        let r := _add_label labels WIP_STR
        (r.1, [Effect.reaction] ++ r.2 ++ [.editTitle ("WIP: " ++ pr_title)])
    else
      label_by_user_comment pr_owner labels name remove reviewed_user

/- ---------------- Token masking (GitHubApi.hash_token / app_logger_*) ---------------- -/

/-- GitHubApi.hash_token: `message.replace(self.token, "*****")`. -/
def hash_token (token message : String) : String :=
  pyReplaceStr token "*****" message

/-- GitHubApi.app_logger_info: the message handed to the underlying
logger is the token-masked message. -/
def app_logger_info (token message : String) : String :=
  hash_token token message

/-- GitHubApi.app_logger_error: the message handed to the underlying
logger is the token-masked message. -/
def app_logger_error (token message : String) : String :=
  hash_token token message

/- ---------------- Helper lemmas: strings ---------------- -/

lemma dropWhile_eq_self_of_all {l : List Char}
    (h : ∀ c ∈ l, isPySpace c = false) : l.dropWhile isPySpace = l := by
  cases l with
  | nil => rfl
  | cons x xs => simp [List.dropWhile, h x (by simp)]

lemma string_mk_data (s : String) : String.mk s.data = s := rfl

lemma pyStrip_eq_self {s : String} (h : spaceFree s) : pyStrip s = s := by
  unfold pyStrip
  rw [dropWhile_eq_self_of_all h,
      dropWhile_eq_self_of_all (fun c hc => h c (List.mem_reverse.mp hc)),
      List.reverse_reverse, string_mk_data]

lemma spaceFree_append {s t : String} (hs : spaceFree s) (ht : spaceFree t) :
    spaceFree (s ++ t) := by
  intro c hc
  rw [String.data_append] at hc
  rcases List.mem_append.mp hc with h | h
  · exact hs c h
  · exact ht c h

lemma pre_append_inj {p u v : String} (h : p ++ u = p ++ v) : u = v := by
  have h2 : p.data ++ u.data = p.data ++ v.data := by
    rw [← String.data_append, ← String.data_append, h]
  exact String.ext (List.append_cancel_left h2)

lemma ap_ne_ch (u v : String) :
    APPROVED_BY_PRE ++ u ≠ CHANGED_REQUESTED_BY_PRE ++ v := by
  intro h
  have h2 := congrArg (fun s => s.data.headD ' ') h
  simp [APPROVED_BY_PRE, CHANGED_REQUESTED_BY_PRE, String.data_append] at h2

lemma co_ne_ap (u v : String) :
    COMMENTED_BY_PRE ++ u ≠ APPROVED_BY_PRE ++ v := by
  intro h
  have h2 := congrArg (fun s => s.data.headD ' ') h
  simp [COMMENTED_BY_PRE, APPROVED_BY_PRE, String.data_append] at h2

lemma co_ne_ch (u v : String) :
    COMMENTED_BY_PRE ++ u ≠ CHANGED_REQUESTED_BY_PRE ++ v := by
  intro h
  have h2 := congrArg (fun s => s.data.getD 1 ' ') h
  simp [COMMENTED_BY_PRE, CHANGED_REQUESTED_BY_PRE, String.data_append] at h2

/- ---------------- Helper lemmas: label primitives ---------------- -/

lemma mem_remove {labels : List String} {l x : String} :
    x ∈ (_remove_label labels l).1 ↔ x ∈ labels ∧ x ≠ l := by
  unfold _remove_label
  split_ifs with h
  · simp [List.mem_filter]
  · constructor
    · intro hx
      refine ⟨hx, ?_⟩
      rintro rfl
      exact h hx
    · exact fun hx => hx.1

lemma mem_add {labels : List String} {l x : String} :
    x ∈ (_add_label labels l).1 ↔
      x ∈ labels ∨ (x = pyStrip l ∧ (pyStrip l).length ≤ 49) := by
  unfold _add_label
  dsimp only
  split_ifs with h1 h2 h3
  · constructor
    · intro hx; exact Or.inl hx
    · rintro (hx | ⟨rfl, hlen⟩)
      · exact hx
      · omega
  · constructor
    · intro hx; exact Or.inl hx
    · rintro (hx | ⟨rfl, _⟩)
      · exact hx
      · exact h2
  · simp only [List.mem_append, List.mem_singleton]
    constructor
    · rintro (hx | rfl)
      · exact Or.inl hx
      · exact Or.inr ⟨rfl, by omega⟩
    · rintro (hx | ⟨rfl, _⟩)
      · exact Or.inl hx
      · exact Or.inr rfl
  · simp only [List.mem_append, List.mem_singleton]
    constructor
    · rintro (hx | rfl)
      · exact Or.inl hx
      · exact Or.inr ⟨rfl, by omega⟩
    · rintro (hx | ⟨rfl, _⟩)
      · exact Or.inl hx
      · exact Or.inr rfl

lemma add_present_noop {labels : List String} {l : String}
    (h : pyStrip l ∈ labels) : _add_label labels l = (labels, []) := by
  unfold _add_label
  dsimp only
  by_cases h1 : 49 < (pyStrip l).length
  · rw [if_pos h1]
  · rw [if_neg h1, if_pos h]

lemma remove_absent_noop {labels : List String} {l : String}
    (h : l ∉ labels) : _remove_label labels l = (labels, []) := by
  unfold _remove_label
  rw [if_neg h]

/- ---------------- Helper lemmas: the evaluator ---------------- -/

lemma pyStrip_cbm : pyStrip CAN_BE_MERGED_STR = CAN_BE_MERGED_STR := by decide

lemma crHit_cbm : crHit CAN_BE_MERGED_STR = false := by decide

lemma apHit_cbm (approvers : List String) :
    apHit approvers CAN_BE_MERGED_STR = false := by
  unfold apHit
  have h : strIn (pyLower APPROVED_BY_PRE) (pyLower CAN_BE_MERGED_STR)
      = false := by decide
  simp [h]

lemma scan_append_neutral {approvers : List String} {x : String}
    (hc : crHit x = false) (ha : apHit approvers x = false)
    (ls : List String) :
    scanApproval approvers (ls ++ [x]) = scanApproval approvers ls := by
  induction ls with
  | nil => simp [scanApproval, hc, ha]
  | cons y ys ih =>
    cases hcy : crHit y <;> cases hay : apHit approvers y <;>
      simp [scanApproval, hcy, hay, ih]

lemma scan_filter_cbm (approvers ls : List String) :
    scanApproval approvers
      (ls.filter (fun lb => decide (lb ≠ CAN_BE_MERGED_STR))) =
    scanApproval approvers ls := by
  induction ls with
  | nil => rfl
  | cons y ys ih =>
    simp only [ne_eq, decide_not] at ih
    by_cases hy : y = CAN_BE_MERGED_STR
    · subst hy
      simp [List.filter_cons, scanApproval, crHit_cbm, apHit_cbm, ih]
    · cases hcy : crHit y <;> cases hay : apHit approvers y <;>
        simp [List.filter_cons, hy, scanApproval, hcy, hay, ih]

lemma scan_eq_true_iff (approvers ls : List String) :
    scanApproval approvers ls = some true ↔
      ∃ l1 a l2, ls = l1 ++ a :: l2 ∧ crHit a = false ∧
        apHit approvers a = true ∧
        ∀ b ∈ l1, crHit b = false ∧ apHit approvers b = false := by
  induction ls with
  | nil =>
    simp only [scanApproval]
    constructor
    · intro h; cases h
    · rintro ⟨l1, a, l2, heq, -⟩
      exact absurd heq.symm (by simp)
  | cons y ys ih =>
    by_cases hcy : crHit y = true
    · simp only [scanApproval, hcy, if_true]
      constructor
      · intro h; cases h
      · rintro ⟨l1, a, l2, heq, hcr, hap, hall⟩
        cases l1 with
        | nil =>
          rw [List.nil_append] at heq
          cases heq
          exact absurd hcy (by simp [hcr])
        | cons z l1t =>
          rw [List.cons_append] at heq
          cases heq
          exact absurd hcy (by simp [(hall y (by simp)).1])
    · by_cases hay : apHit approvers y = true
      · simp only [scanApproval, hcy, hay, if_true, if_false,
          Bool.not_eq_true]
        constructor
        · intro _
          exact ⟨[], y, ys, rfl, by simpa using hcy, hay, by simp⟩
        · intro _; rfl
      · rw [show scanApproval approvers (y :: ys) = scanApproval approvers ys
          by simp [scanApproval, hcy, hay], ih]
        constructor
        · rintro ⟨l1, a, l2, heq, hcr, hap, hall⟩
          refine ⟨y :: l1, a, l2, by rw [heq, List.cons_append], hcr, hap, ?_⟩
          intro b hb
          rcases List.mem_cons.mp hb with rfl | hb
          · exact ⟨by simpa using hcy, by simpa using hay⟩
          · exact hall b hb
        · rintro ⟨l1, a, l2, heq, hcr, hap, hall⟩
          cases l1 with
          | nil =>
            rw [List.nil_append] at heq
            cases heq
            exact absurd hap (by simp [hay])
          | cons z l1t =>
            rw [List.cons_append] at heq
            cases heq
            exact ⟨l1t, a, l2, rfl, hcr, hap,
              fun b hb => hall b (by simp [hb])⟩

lemma mergeVerdict_congr {l1 l2 : List String} {st : String}
    {runs : List (Option String)} {statuses : List CommitStatus}
    {apr : List String}
    (hv : VERIFIED_LABEL_STR ∈ l1 ↔ VERIFIED_LABEL_STR ∈ l2)
    (hh : HOLD_LABEL_STR ∈ l1 ↔ HOLD_LABEL_STR ∈ l2)
    (hs : scanApproval apr l1 = scanApproval apr l2) :
    mergeVerdict l1 st runs statuses apr = mergeVerdict l2 st runs statuses apr := by
  unfold mergeVerdict
  rw [decide_eq_decide.mpr hv, decide_eq_decide.mpr (not_congr hh), hs]

lemma add_cbm_absent {labels : List String}
    (h : CAN_BE_MERGED_STR ∉ labels) :
    _add_label labels CAN_BE_MERGED_STR =
      (labels ++ [CAN_BE_MERGED_STR], [.attach CAN_BE_MERGED_STR]) := by
  unfold _add_label
  dsimp only
  rw [pyStrip_cbm, if_neg (by decide), if_neg h, if_pos (by decide)]

lemma check_mergeable_eq (labels : List String) (st : String)
    (runs : List (Option String)) (statuses : List CommitStatus)
    (apr : List String) :
    (check_if_can_be_merged labels st runs statuses apr).mergeable =
      mergeVerdict labels st runs statuses apr := by
  unfold check_if_can_be_merged
  split_ifs with h
  · exact h.symm
  · simp only [Bool.not_eq_true] at h
    exact h.symm

lemma check_eq_of_true_mem {labels : List String} {st : String}
    {runs : List (Option String)} {statuses : List CommitStatus}
    {apr : List String}
    (h : mergeVerdict labels st runs statuses apr = true)
    (hm : CAN_BE_MERGED_STR ∈ labels) :
    check_if_can_be_merged labels st runs statuses apr =
      ⟨true, labels, [.status CAN_BE_MERGED_STR SUCCESS_STR]⟩ := by
  unfold check_if_can_be_merged
  rw [if_pos h, add_present_noop (by rw [pyStrip_cbm]; exact hm)]
  rfl

lemma check_eq_of_false_notmem {labels : List String} {st : String}
    {runs : List (Option String)} {statuses : List CommitStatus}
    {apr : List String}
    (h : mergeVerdict labels st runs statuses apr = false)
    (hm : CAN_BE_MERGED_STR ∉ labels) :
    check_if_can_be_merged labels st runs statuses apr =
      ⟨false, labels, [.status CAN_BE_MERGED_STR PENDING_STR]⟩ := by
  unfold check_if_can_be_merged
  rw [if_neg (by simp [h]), remove_absent_noop hm]
  rfl

lemma check_true_cbm_mem {labels : List String} {st : String}
    {runs : List (Option String)} {statuses : List CommitStatus}
    {apr : List String}
    (h : mergeVerdict labels st runs statuses apr = true) :
    CAN_BE_MERGED_STR ∈ (check_if_can_be_merged labels st runs statuses apr).labels := by
  unfold check_if_can_be_merged
  rw [if_pos h]
  dsimp only
  rw [mem_add]
  exact Or.inr ⟨pyStrip_cbm.symm, by decide⟩

lemma check_false_cbm_notmem {labels : List String} {st : String}
    {runs : List (Option String)} {statuses : List CommitStatus}
    {apr : List String}
    (h : mergeVerdict labels st runs statuses apr = false) :
    CAN_BE_MERGED_STR ∉ (check_if_can_be_merged labels st runs statuses apr).labels := by
  unfold check_if_can_be_merged
  rw [if_neg (by simp [h])]
  dsimp only
  intro hmem
  exact (mem_remove.mp hmem).2 rfl

lemma verdict_second_run (labels : List String) (st : String)
    (runs : List (Option String)) (statuses : List CommitStatus)
    (apr : List String) :
    mergeVerdict (check_if_can_be_merged labels st runs statuses apr).labels
      st runs statuses apr = mergeVerdict labels st runs statuses apr := by
  have h1 : VERIFIED_LABEL_STR ≠ CAN_BE_MERGED_STR := by decide
  have h2 : HOLD_LABEL_STR ≠ CAN_BE_MERGED_STR := by decide
  unfold check_if_can_be_merged
  split_ifs with h
  · dsimp only
    by_cases hm : CAN_BE_MERGED_STR ∈ labels
    · rw [add_present_noop (by rw [pyStrip_cbm]; exact hm)]
    · rw [add_cbm_absent hm]
      exact mergeVerdict_congr (by simp [h1]) (by simp [h2])
        (scan_append_neutral crHit_cbm (apHit_cbm apr) labels)
  · dsimp only
    unfold _remove_label
    split_ifs with hm
    · dsimp only
      refine mergeVerdict_congr ?_ ?_ (scan_filter_cbm apr labels)
      · simp [List.mem_filter, h1]
      · simp [List.mem_filter, h2]
    · rfl

/- ---------------- Claims C1, C2, C4 ---------------- -/

/-- The reference predicate of claim C1: the seven eligibility
conditions of spec section 4.4 written from the spec's words, for
comparison with `check_if_can_be_merged` (condition 4 reuses
`finalStatuses` for the latest-by-timestamp snapshot). -/
def specMergeable (verification_disabled : Bool) (labels : List String)
    (mergeable_state : String) (checkRunConclusions : List (Option String))
    (statuses : List CommitStatus) (approvers : List String) : Prop :=
  (VERIFIED_LABEL_STR ∈ labels ∨ verification_disabled = true) ∧
  mergeable_state ≠ "behind" ∧
  (∀ c ∈ checkRunConclusions, c = some SUCCESS_STR) ∧
  (∀ e ∈ finalStatuses statuses, e.state = SUCCESS_STR) ∧
  HOLD_LABEL_STR ∉ labels ∧
  (¬ ∃ u, CHANGED_REQUESTED_BY_PRE ++ u ∈ labels) ∧
  (∃ u ∈ approvers, APPROVED_BY_PRE ++ u ∈ labels)

/-- Claim C1 is false as stated: with labels listed as `verified`,
`Approved-By-alice`, `Changes-requested-By-bob` and approver `alice`,
the evaluator reports mergeable although the seven-condition reference
predicate fails (a `Changes-requested-By-*` label is present), because
the label loop breaks on the approval before ever seeing the
changes-requested label. -/
theorem c1_seven_conditions_counterexample :
    (check_if_can_be_merged
        ["verified", "Approved-By-alice", "Changes-requested-By-bob"]
        "clean" [] [] ["alice"]).mergeable = true ∧
    ¬ specMergeable false
        ["verified", "Approved-By-alice", "Changes-requested-By-bob"]
        "clean" [] [] ["alice"] := by
  constructor
  · decide
  · intro h
    exact h.2.2.2.2.2.1 ⟨"bob", by decide⟩

/-- Claim C1, amended: the evaluator reports mergeable if and only if
the five gate conditions hold (verified label present — the
verification-disabled flag is not consulted —, state not behind, all
check runs successful, all latest-by-timestamp statuses other than
can-be-merged successful, hold absent) and the first label in list
order that matches either reviewer pattern is an approval match: it
does not contain `changes-requested-by-` (case-insensitively) and it
contains `approved-by-` with its last hyphen-separated segment a
member of the approvers list. -/
theorem c1_merge_eligibility_amended :
    ∀ (labels : List String) (mergeable_state : String)
      (checkRunConclusions : List (Option String))
      (statuses : List CommitStatus) (approvers : List String),
      (check_if_can_be_merged labels mergeable_state checkRunConclusions
          statuses approvers).mergeable = true ↔
        (VERIFIED_LABEL_STR ∈ labels ∧ mergeable_state ≠ "behind" ∧
         (∀ c ∈ checkRunConclusions, c = some SUCCESS_STR) ∧
         (∀ e ∈ finalStatuses statuses, e.state = SUCCESS_STR) ∧
         HOLD_LABEL_STR ∉ labels ∧
         ∃ l1 a l2, labels = l1 ++ a :: l2 ∧ crHit a = false ∧
           apHit approvers a = true ∧
           ∀ b ∈ l1, crHit b = false ∧ apHit approvers b = false) := by
  intro labels mergeable_state runs statuses approvers
  rw [check_mergeable_eq]
  unfold mergeVerdict
  simp only [Bool.and_eq_true, decide_eq_true_eq, List.all_eq_true,
    beq_iff_eq]
  rw [scan_eq_true_iff]
  tauto

/-- Claim C2 exhibits a code bug: with the labels listed as `verified`,
`Approved-By-alice`, `Changes-requested-By-bob` (approver `alice`,
clean state, no check runs, no statuses) a `Changes-requested-By-*`
label is present, yet the evaluator reports mergeable, attaches
`can-be-merged` and writes the merge-check success status, violating
the function's own docstring requirement "PR has no changed requests
from reviewers". -/
theorem c2_changes_requested_not_blocking :
    CHANGED_REQUESTED_BY_PRE ++ "bob" ∈
      ["verified", "Approved-By-alice", "Changes-requested-By-bob"] ∧
    check_if_can_be_merged
        ["verified", "Approved-By-alice", "Changes-requested-By-bob"]
        "clean" [] [] ["alice"] =
      ⟨true,
       ["verified", "Approved-By-alice", "Changes-requested-By-bob",
        "can-be-merged"],
       [.attach "can-be-merged",
        .status "can-be-merged" "success"]⟩ := by
  constructor
  · decide
  · decide

/-- Claim C4 is false as stated: a second evaluator run with unchanged
inputs does issue a mutation — the merge-check status write is
repeated (here, on a pull request with no labels, the second run again
writes the pending status). -/
theorem c4_idempotence_counterexample :
    (check_if_can_be_merged
        (check_if_can_be_merged [] "clean" [] [] []).labels
        "clean" [] [] []).effects ≠ [] := by
  decide

/-- Claim C4, amended: a second evaluator run with unchanged inputs
issues no additional label mutation (no attach and no detach reaches
the collaborator), reaches the same verdict and the same label set,
but re-issues exactly one merge-check status write (success when
mergeable, pending otherwise). -/
theorem c4_second_run_amended :
    ∀ (labels : List String) (st : String) (runs : List (Option String))
      (statuses : List CommitStatus) (apr : List String),
      (check_if_can_be_merged
          (check_if_can_be_merged labels st runs statuses apr).labels
          st runs statuses apr) =
        ⟨(check_if_can_be_merged labels st runs statuses apr).mergeable,
         (check_if_can_be_merged labels st runs statuses apr).labels,
         [Effect.status CAN_BE_MERGED_STR
           (if (check_if_can_be_merged labels st runs statuses apr).mergeable
            then SUCCESS_STR else PENDING_STR)]⟩ ∧
      ∀ e ∈ (check_if_can_be_merged
          (check_if_can_be_merged labels st runs statuses apr).labels
          st runs statuses apr).effects,
        e.isLabelMutation = false := by
  intro labels st runs statuses apr
  have hv := verdict_second_run labels st runs statuses apr
  have hmerge := check_mergeable_eq labels st runs statuses apr
  cases h : mergeVerdict labels st runs statuses apr with
  | true =>
    have hsecond := @check_eq_of_true_mem
      ((check_if_can_be_merged labels st runs statuses apr).labels)
      st runs statuses apr (by rw [hv, h]) (check_true_cbm_mem h)
    rw [hsecond]
    constructor
    · rw [hmerge, h]
      simp
    · intro e he
      simp only [List.mem_singleton] at he
      subst he
      rfl
  | false =>
    have hsecond := @check_eq_of_false_notmem
      ((check_if_can_be_merged labels st runs statuses apr).labels)
      st runs statuses apr (by rw [hv, h]) (check_false_cbm_notmem h)
    rw [hsecond]
    constructor
    · rw [hmerge, h]
      simp
    · intro e he
      simp only [List.mem_singleton] at he
      subst he
      rfl

/- ---------------- Helper lemmas: reviewer tracker ---------------- -/

lemma sf_ap : spaceFree APPROVED_BY_PRE := by decide

lemma sf_ch : spaceFree CHANGED_REQUESTED_BY_PRE := by decide

lemma sf_co : spaceFree COMMENTED_BY_PRE := by decide

lemma strip_ap {v : String} (hv : spaceFree v) :
    pyStrip (APPROVED_BY_PRE ++ v) = APPROVED_BY_PRE ++ v :=
  pyStrip_eq_self (spaceFree_append sf_ap hv)

lemma strip_ch {v : String} (hv : spaceFree v) :
    pyStrip (CHANGED_REQUESTED_BY_PRE ++ v) = CHANGED_REQUESTED_BY_PRE ++ v :=
  pyStrip_eq_self (spaceFree_append sf_ch hv)

lemma strip_co {v : String} (hv : spaceFree v) :
    pyStrip (COMMENTED_BY_PRE ++ v) = COMMENTED_BY_PRE ++ v :=
  pyStrip_eq_self (spaceFree_append sf_co hv)

lemma ch_append_inj {u v : String}
    (h : CHANGED_REQUESTED_BY_PRE ++ u = CHANGED_REQUESTED_BY_PRE ++ v) :
    u = v := pre_append_inj h

lemma ap_append_inj {u v : String}
    (h : APPROVED_BY_PRE ++ u = APPROVED_BY_PRE ++ v) : u = v :=
  pre_append_inj h

/-- The mutual-exclusion invariant of claim C3 for one reviewer. -/
def mutexFor (u : String) (labels : List String) : Prop :=
  ¬ (APPROVED_BY_PRE ++ u ∈ labels ∧ CHANGED_REQUESTED_BY_PRE ++ u ∈ labels)

instance (u : String) (labels : List String) : Decidable (mutexFor u labels) := by
  unfold mutexFor; infer_instance

lemma mutex_applyReviewer_ap {labels : List String} {v u : String}
    (hv : spaceFree v) (hm : mutexFor u labels) (action : String) :
    mutexFor u
      (applyReviewer labels (APPROVED_BY_PRE ++ v)
        (if CHANGED_REQUESTED_BY_PRE ++ v ∈ labels then
          some (CHANGED_REQUESTED_BY_PRE ++ v) else none) action).1 := by
  unfold applyReviewer
  split_ifs with hact hml hml
  · -- add, changes-requested label recorded for removal
    dsimp only
    rintro ⟨hap, hch⟩
    rw [mem_remove, mem_add, strip_ap hv] at hap hch
    rcases hch.1 with hch1 | ⟨hch1, -⟩
    · rcases hap.1 with hap1 | ⟨hap1, -⟩
      · by_cases huv : u = v
        · exact hch.2 (by rw [huv])
        · exact hm ⟨hap1, hch1⟩
      · have huv : u = v := ap_append_inj hap1
        exact hch.2 (by rw [huv])
    · exact ap_ne_ch v u hch1.symm
  · -- add, nothing to remove
    dsimp only
    rintro ⟨hap, hch⟩
    rw [mem_add, strip_ap hv] at hap hch
    rcases hch with hch1 | ⟨hch1, -⟩
    · rcases hap with hap1 | ⟨hap1, -⟩
      · exact hm ⟨hap1, hch1⟩
      · have huv : u = v := ap_append_inj hap1
        exact hml (by rw [← huv]; exact hch1)
    · exact ap_ne_ch v u hch1.symm
  · -- delete
    rintro ⟨hap, hch⟩
    rw [mem_remove] at hap hch
    exact hm ⟨hap.1, hch.1⟩
  · -- unsupported action: no change
    exact hm

lemma mutex_applyReviewer_ch {labels : List String} {v u : String}
    (hv : spaceFree v) (hm : mutexFor u labels) (action : String) :
    mutexFor u
      (applyReviewer labels (CHANGED_REQUESTED_BY_PRE ++ v)
        (if APPROVED_BY_PRE ++ v ∈ labels then
          some (APPROVED_BY_PRE ++ v) else none) action).1 := by
  unfold applyReviewer
  split_ifs with hact hml hml
  · dsimp only
    rintro ⟨hap, hch⟩
    rw [mem_remove, mem_add, strip_ch hv] at hap hch
    rcases hap.1 with hap1 | ⟨hap1, -⟩
    · rcases hch.1 with hch1 | ⟨hch1, -⟩
      · by_cases huv : u = v
        · exact hap.2 (by rw [huv])
        · exact hm ⟨hap1, hch1⟩
      · have huv : u = v := ch_append_inj hch1
        exact hap.2 (by rw [huv])
    · exact ap_ne_ch u v hap1
  · dsimp only
    rintro ⟨hap, hch⟩
    rw [mem_add, strip_ch hv] at hap hch
    rcases hap with hap1 | ⟨hap1, -⟩
    · rcases hch with hch1 | ⟨hch1, -⟩
      · exact hm ⟨hap1, hch1⟩
      · have huv : u = v := ch_append_inj hch1
        exact hml (by rw [← huv]; exact hap1)
    · exact ap_ne_ch u v hap1
  · -- delete
    rintro ⟨hap, hch⟩
    rw [mem_remove] at hap hch
    exact hm ⟨hap.1, hch.1⟩
  · -- unsupported action: no change
    exact hm

lemma mutex_applyReviewer_co {labels : List String} {v u : String}
    (hv : spaceFree v) (hm : mutexFor u labels) (action : String) :
    mutexFor u
      (applyReviewer labels (COMMENTED_BY_PRE ++ v) none action).1 := by
  unfold applyReviewer
  split_ifs with hact hdel
  · dsimp only
    rintro ⟨hap, hch⟩
    rw [mem_add, strip_co hv] at hap hch
    rcases hap with hap1 | ⟨hap1, -⟩
    · rcases hch with hch1 | ⟨hch1, -⟩
      · exact hm ⟨hap1, hch1⟩
      · exact co_ne_ch v u hch1.symm
    · exact co_ne_ap v u hap1.symm
  · rintro ⟨hap, hch⟩
    rw [mem_remove] at hap hch
    exact hm ⟨hap.1, hch.1⟩
  · exact hm

lemma ch_event_result {o : String} {l1 : List String} {u : String}
    (hu : spaceFree u) (hlen : (CHANGED_REQUESTED_BY_PRE ++ u).length ≤ 49) :
    CHANGED_REQUESTED_BY_PRE ++ u ∈
      (manage_reviewed_by_label o l1 "changes_requested" ADD_STR u).1 ∧
    APPROVED_BY_PRE ++ u ∉
      (manage_reviewed_by_label o l1 "changes_requested" ADD_STR u).1 := by
  unfold manage_reviewed_by_label
  rw [if_neg (by decide), if_pos rfl]
  unfold applyReviewer
  rw [if_pos rfl]
  by_cases hm2 : APPROVED_BY_PRE ++ u ∈ l1
  · rw [if_pos hm2]
    dsimp only
    constructor
    · rw [mem_remove, mem_add, strip_ch hu]
      exact ⟨Or.inr ⟨rfl, hlen⟩, fun h => ap_ne_ch u u h.symm⟩
    · rw [mem_remove]
      rintro ⟨-, hne⟩
      exact hne rfl
  · rw [if_neg hm2]
    dsimp only
    constructor
    · rw [mem_add, strip_ch hu]
      exact Or.inr ⟨rfl, hlen⟩
    · rw [mem_add, strip_ch hu]
      rintro (h | ⟨h, -⟩)
      · exact hm2 h
      · exact ap_ne_ch u u h

/- ---------------- Claims C3, C5 ---------------- -/

/-- Claim C3 is false as stated: for a 30-character reviewer name the
rendered `Changes-requested-By-<user>` label exceeds the 49-character
limit of `_add_label`, so applying (approved, add, U) then
(changes_requested, add, U) leaves the changes-requested label absent
(the approval label is still removed), not "exactly present". -/
theorem c3_mutual_exclusion_counterexample :
    CHANGED_REQUESTED_BY_PRE ++ "abcdefghijabcdefghijabcdefghij" ∉
      (manage_reviewed_by_label "owner"
        (manage_reviewed_by_label "owner" []
          "approved" ADD_STR "abcdefghijabcdefghijabcdefghij").1
        "changes_requested" ADD_STR "abcdefghijabcdefghijabcdefghij").1 := by
  decide

/-- Claim C3, amended: for whitespace-free reviewer names, at most one
of `Approved-By-u` / `Changes-requested-By-u` is present after any
event applied through the tracker when at most one was present before;
and for a reviewer name whose changes-requested label fits the
49-character label limit, applying (approved, add, U) then
(changes_requested, add, U) leaves `Changes-requested-By-U` present
and `Approved-By-U` absent, from any starting label set. -/
theorem c3_mutual_exclusion_amended :
    (∀ (pr_owner : String) (labels : List String)
       (review_state action v u : String), spaceFree v →
       mutexFor u labels →
       mutexFor u
         (manage_reviewed_by_label pr_owner labels review_state action v).1) ∧
    (∀ (pr_owner : String) (labels : List String) (u : String),
       spaceFree u → (CHANGED_REQUESTED_BY_PRE ++ u).length ≤ 49 →
       CHANGED_REQUESTED_BY_PRE ++ u ∈
         (manage_reviewed_by_label pr_owner
           (manage_reviewed_by_label pr_owner labels "approved" ADD_STR u).1
           "changes_requested" ADD_STR u).1 ∧
       APPROVED_BY_PRE ++ u ∉
         (manage_reviewed_by_label pr_owner
           (manage_reviewed_by_label pr_owner labels "approved" ADD_STR u).1
           "changes_requested" ADD_STR u).1) := by
  constructor
  · intro o labels rs action v u hv hm
    unfold manage_reviewed_by_label
    by_cases h1 : rs = "approved" ∨ rs = LGTM_STR
    · rw [if_pos h1]
      by_cases h2 : o = v
      · rw [if_pos h2]
        exact hm
      · rw [if_neg h2]
        exact mutex_applyReviewer_ap hv hm action
    · rw [if_neg h1]
      by_cases h3 : rs = "changes_requested"
      · rw [if_pos h3]
        exact mutex_applyReviewer_ch hv hm action
      · rw [if_neg h3]
        by_cases h4 : rs = "commented"
        · rw [if_pos h4]
          exact mutex_applyReviewer_co hv hm action
        · rw [if_neg h4]
          exact hm
  · intro o labels u hu hlen
    exact ch_event_result hu hlen

theorem c3_mutual_exclusion_witness :
    mutexFor "bob"
      (manage_reviewed_by_label "alice" ["Approved-By-bob"]
        "changes_requested" ADD_STR "bob").1 ∧
    (CHANGED_REQUESTED_BY_PRE ++ "bob" ∈
      (manage_reviewed_by_label "alice"
        (manage_reviewed_by_label "alice" [] "approved" ADD_STR "bob").1
        "changes_requested" ADD_STR "bob").1 ∧
     APPROVED_BY_PRE ++ "bob" ∉
      (manage_reviewed_by_label "alice"
        (manage_reviewed_by_label "alice" [] "approved" ADD_STR "bob").1
        "changes_requested" ADD_STR "bob").1) :=
  ⟨c3_mutual_exclusion_amended.1 "alice" ["Approved-By-bob"]
      "changes_requested" ADD_STR "bob" "bob" (by decide) (by decide),
   c3_mutual_exclusion_amended.2 "alice" [] "bob" (by decide) (by decide)⟩

/-- Claim C5: an approved/lgtm review event whose reviewer is the pull
request's own author changes nothing: the tracker returns the label
set unchanged and issues no effect. -/
theorem c5_self_approval_noop :
    ∀ (pr_owner : String) (labels : List String)
      (review_state action u : String),
      (review_state = "approved" ∨ review_state = LGTM_STR) →
      u = pr_owner →
      manage_reviewed_by_label pr_owner labels review_state action u =
        (labels, []) := by
  intro o labels rs action u h1 h2
  unfold manage_reviewed_by_label
  rw [if_pos h1, if_pos h2.symm]

theorem c5_self_approval_witness :
    manage_reviewed_by_label "alice" ["verified"] "approved" ADD_STR
      "alice" = (["verified"], []) :=
  c5_self_approval_noop "alice" ["verified"] "approved" ADD_STR "alice"
    (Or.inl rfl) rfl

/- ---------------- Helper lemmas: infix plumbing ---------------- -/

lemma inf_appendR {a : List Char} {x z : String} (h : a <:+: x.data) :
    a <:+: (x ++ z).data := by
  rw [String.data_append]
  exact h.trans ((List.prefix_append x.data z.data).isInfix)

lemma inf_self_suffix {x y : String} : y.data <:+: (x ++ y).data := by
  rw [String.data_append]
  exact (List.suffix_append x.data y.data).isInfix

/- ---------------- Claim C6 ---------------- -/

/-- Claim C6 is false as stated: the recovery comment posted on a
failed cherry-pick step contains a five-command recipe (checkout,
pull, checkout -b, cherry-pick, push), not a four-command one; the
single comment and failure return are as claimed. -/
theorem c6_recipe_counterexample :
    cherryPickStep "abc123" "my-feature" "release-1.0"
        ⟨false, "", "conflict"⟩ ⟨true, "", ""⟩ ⟨true, "", ""⟩ none =
      ([recovery_comment "abc123" "release-1.0" "my-feature"], false) ∧
    gitLineCount (recovery_comment "abc123" "release-1.0" "my-feature") = 5 ∧
    gitLineCount (recovery_comment "abc123" "release-1.0" "my-feature") ≠ 4 := by
  refine ⟨rfl, by decide, by decide⟩

/-- Claim C6, amended: when any step of the cherry-pick flow fails (or
an unexpected exception is raised), the flow returns failure and posts
exactly one comment, which contains the literal merge-commit hash, the
target branch name, and the five-command manual recovery recipe; and
the merged-pull-request loop processes every cherry-pick-labelled
target branch whatever the per-target outcomes are. -/
theorem c6_cherry_pick_failure_amended :
    (∀ (commit_hash head_ref target_branch : String)
       (r1 r2 r3 : RunResult) (raised : Option String),
       (cherryPickStep commit_hash head_ref target_branch r1 r2 r3
           raised).2 = false →
       (cherryPickStep commit_hash head_ref target_branch r1 r2 r3
           raised).1 =
         [recovery_comment commit_hash target_branch head_ref]) ∧
    (∀ (commit_hash head_ref target_branch : String)
       (r1 r2 r3 : RunResult) (raised : Option String),
       (raised ≠ none ∨ r1.ok = false ∨ r2.ok = false ∨ r3.ok = false) →
       (cherryPickStep commit_hash head_ref target_branch r1 r2 r3
           raised).2 = false) ∧
    (∀ (commit_hash target_branch head_ref : String),
       commit_hash.data <:+:
         (recovery_comment commit_hash target_branch head_ref).data ∧
       target_branch.data <:+:
         (recovery_comment commit_hash target_branch head_ref).data ∧
       (recovery_recipe commit_hash target_branch
           (head_ref ++ "-" ++ target_branch)).data <:+:
         (recovery_comment commit_hash target_branch head_ref).data) ∧
    (∀ (labels : List String) (outcome : String → Bool),
       (process_merged_cherry_picks labels outcome).map Prod.fst =
         (labels.filter (strStarts CHERRY_PICK_PRE)).map
           (pyReplaceStr CHERRY_PICK_PRE "")) := by
  refine ⟨?_, ?_, ?_, ?_⟩
  · intro ch hr tb r1 r2 r3 raised hfail
    cases raised with
    | some e => rfl
    | none =>
      unfold cherryPickStep at hfail ⊢
      dsimp only at hfail ⊢
      split_ifs at hfail ⊢ <;> rfl
  · intro ch hr tb r1 r2 r3 raised h
    cases raised with
    | some e => rfl
    | none =>
      rcases h with h | h | h | h
      · exact absurd rfl h
      · unfold cherryPickStep
        rw [if_pos h]
      · unfold cherryPickStep
        by_cases h1 : r1.ok = false
        · rw [if_pos h1]
        · rw [if_neg h1, if_pos h]
      · unfold cherryPickStep
        by_cases h1 : r1.ok = false
        · rw [if_pos h1]
        · rw [if_neg h1]
          by_cases h2 : r2.ok = false
          · rw [if_pos h2]
          · rw [if_neg h2, if_pos h]
  · intro ch tb hr
    unfold recovery_comment
    refine ⟨?_, ?_, ?_⟩
    · exact inf_appendR (inf_appendR (inf_appendR (inf_appendR
        (inf_appendR inf_self_suffix))))
    · exact inf_appendR (inf_appendR (inf_appendR inf_self_suffix))
    · exact inf_appendR inf_self_suffix
  · intro labels outcome
    induction labels with
    | nil => rfl
    | cons l ls ih =>
      unfold process_merged_cherry_picks at ih ⊢
      rw [List.filterMap_cons, List.filter_cons]
      by_cases h : strStarts CHERRY_PICK_PRE l = true
      · simp only [h, if_true, List.map_cons, List.map]
        rw [ih]
      · simp only [h, Bool.false_eq_true, if_false]
        rw [ih]

theorem c6_cherry_pick_failure_witness :
    (cherryPickStep "abc123" "my-feature" "release-1.0"
        ⟨true, "", ""⟩ ⟨false, "", "denied"⟩ ⟨true, "", ""⟩ none).1 =
      [recovery_comment "abc123" "release-1.0" "my-feature"] ∧
    (cherryPickStep "abc123" "my-feature" "release-1.0"
        ⟨true, "", ""⟩ ⟨false, "", "denied"⟩ ⟨true, "", ""⟩ none).2 = false :=
  ⟨c6_cherry_pick_failure_amended.1 "abc123" "my-feature" "release-1.0"
      ⟨true, "", ""⟩ ⟨false, "", "denied"⟩ ⟨true, "", ""⟩ none
      (c6_cherry_pick_failure_amended.2.1 "abc123" "my-feature" "release-1.0"
        ⟨true, "", ""⟩ ⟨false, "", "denied"⟩ ⟨true, "", ""⟩ none
        (Or.inr (Or.inr (Or.inl rfl)))),
   c6_cherry_pick_failure_amended.2.1 "abc123" "my-feature" "release-1.0"
      ⟨true, "", ""⟩ ⟨false, "", "denied"⟩ ⟨true, "", ""⟩ none
      (Or.inr (Or.inr (Or.inl rfl)))⟩

/- ---------------- Claims C7, C9 ---------------- -/

/-- Claim C7 is false as stated: `_add_label` strips the name first,
so a 52-character name whose surplus is trailing whitespace is not
rejected — the stripped 48-character label is created and attached. -/
theorem c7_label_too_long_counterexample :
    ("aaaaaaaaaaaaaaaaaaaaaaaaaaaaaaaaaaaaaaaaaaaaaaaa    " : String).length
      = 52 ∧
    (_add_label [] "aaaaaaaaaaaaaaaaaaaaaaaaaaaaaaaaaaaaaaaaaaaaaaaa    ").2
      ≠ [] := by
  constructor
  · decide
  · decide

/-- Claim C7, amended: every label name whose stripped length exceeds
49 characters is rejected before any collaborator call: the label set
is unchanged and no effect (neither a repository label creation nor an
attach) is issued. -/
theorem c7_label_too_long_amended :
    ∀ (labels : List String) (label : String),
      49 < (pyStrip label).length →
      _add_label labels label = (labels, []) := by
  intro labels l h
  unfold _add_label
  dsimp only
  rw [if_pos h]

theorem c7_label_too_long_witness :
    _add_label []
      "aaaaaaaaaaaaaaaaaaaaaaaaaaaaaaaaaaaaaaaaaaaaaaaaaaaa" = ([], []) :=
  c7_label_too_long_amended []
    "aaaaaaaaaaaaaaaaaaaaaaaaaaaaaaaaaaaaaaaaaaaaaaaaaaaa" (by decide)

/-- Claim C9: the size label is a total function of
additions + deletions; on a pull request without the label one attach
of `size/<tier>` is issued, and the tier follows the claimed
thresholds (XS below 20, S below 50, M below 100, L below 300, XL
below 500, XXL from 500 up). -/
theorem c9_size_label_total :
    ∀ (additions deletions : Nat),
      ((add_size_label [] additions deletions).2.filter
          Effect.isLabelMutation) =
        [Effect.attach ("size/" ++ sizeTier (additions + deletions))] ∧
      (additions + deletions < 20 →
        sizeTier (additions + deletions) = "XS") ∧
      (20 ≤ additions + deletions → additions + deletions < 50 →
        sizeTier (additions + deletions) = "S") ∧
      (50 ≤ additions + deletions → additions + deletions < 100 →
        sizeTier (additions + deletions) = "M") ∧
      (100 ≤ additions + deletions → additions + deletions < 300 →
        sizeTier (additions + deletions) = "L") ∧
      (300 ≤ additions + deletions → additions + deletions < 500 →
        sizeTier (additions + deletions) = "XL") ∧
      (500 ≤ additions + deletions →
        sizeTier (additions + deletions) = "XXL") := by
  intro a d
  refine ⟨?_, ?_, ?_, ?_, ?_, ?_, ?_⟩
  · unfold add_size_label sizeTier
    split_ifs <;> decide
  all_goals
    intro _
    try intro _
    unfold sizeTier
    split_ifs <;> first | rfl | (exfalso; omega)

theorem c9_size_label_witness :
    ((add_size_label [] 10 5).2.filter Effect.isLabelMutation) =
      [Effect.attach ("size/" ++ sizeTier 15)] ∧ sizeTier 15 = "XS" :=
  ⟨(c9_size_label_total 10 5).1, (c9_size_label_total 10 5).2.1 (by omega)⟩

/- ---------------- Claim C8 ---------------- -/

/-- Claim C8 is false as stated: the vocabulary validation of
label_by_user_comment is a prefix test, so the unknown name `holdxyz`
(not in the vocabulary, but starting with `hold`) is not rejected —
no rejection comment is posted and the label `holdxyz` is created and
attached. -/
theorem c8_label_toggle_counterexample :
    "holdxyz" ∉ USER_LABELS ∧
    user_commands "repo:" true true true false (fun _ => true) "owner"
        "title" [] "holdxyz" "alice" =
      (["holdxyz"],
       [Effect.reaction, .ensureRepoLabel "holdxyz", .attach "holdxyz"]) := by
  constructor
  · decide
  · decide

/-- Claim C8, amended: a comment command whose name is not in the
action vocabulary (retest, cherry-pick, wip, build-and-push-container)
and does not contain the ignore marker is treated as a label toggle,
with validation by prefix: when no recognized user-label name is a
prefix of the command name, a rejection comment is the only effect and
the label set is unchanged; when some recognized name is a prefix (and
the name is whitespace-free and fits the 49-character limit), the
label named by the command is absent after a negated command
(trailing `cancel`) and present after a non-negated one. -/
theorem c8_label_toggle_amended :
    ∀ (logPfx : String) (tox_enabled build_cfg pypi_cfg merged : Bool)
      (branch_exists : String → Bool) (pr_owner pr_title : String)
      (labels : List String) (command reviewed_user : String),
      strIn "sonarsource.github.io" command = false →
      cmdName command ∉
        (["retest", "cherry-pick", "wip", "build-and-push-container"] :
          List String) →
      ((USER_LABELS.any (fun p => strStarts p (cmdName command)) = false →
        (user_commands logPfx tox_enabled build_cfg pypi_cfg merged
          branch_exists pr_owner pr_title labels command reviewed_user) =
          (labels, [.comment (labelRejectBody (cmdName command))])) ∧
       (USER_LABELS.any (fun p => strStarts p (cmdName command)) = true →
        spaceFree (cmdName command) → (cmdName command).length ≤ 49 →
        ((cmdArgs command = "cancel" →
          cmdName command ∉
            (user_commands logPfx tox_enabled build_cfg pypi_cfg merged
              branch_exists pr_owner pr_title labels command
              reviewed_user).1) ∧
         (cmdArgs command ≠ "cancel" →
          cmdName command ∈
            (user_commands logPfx tox_enabled build_cfg pypi_cfg merged
              branch_exists pr_owner pr_title labels command
              reviewed_user).1)))) := by
  intro logPfx toxE bCfg pCfg merged brEx owner title labels command ru
    hsonar hvocab
  have hr : ¬ (cmdName command = "retest" ∨ cmdName command = "cherry-pick") := by
    rintro (h | h) <;> exact hvocab (by simp [h])
  have hb : cmdName command ≠ "build-and-push-container" := by
    intro h; exact hvocab (by simp [h])
  have hw : cmdName command ≠ WIP_STR := by
    intro h; exact hvocab (by simp [h, WIP_STR])
  unfold user_commands
  rw [if_neg (by simp [hsonar])]
  dsimp only
  rw [if_neg hr, if_neg hb, if_neg hw]
  unfold label_by_user_comment
  constructor
  · intro hno
    rw [if_pos (by simp [hno])]
  · intro hyes hsf hlen
    rw [if_neg (by simp [hyes])]
    dsimp only
    constructor
    · intro hcancel
      rw [if_pos (by simp [hcancel])]
      intro hmem
      exact (mem_remove.mp hmem).2 rfl
    · intro hnc
      rw [if_neg (by simp [hnc])]
      rw [mem_add, pyStrip_eq_self hsf]
      exact Or.inr ⟨rfl, hlen⟩

theorem c8_label_toggle_witness :
    user_commands "p:" true true true false (fun _ => true) "o" "t" []
        "frobnicate" "u" =
      ([], [.comment (labelRejectBody "frobnicate")]) ∧
    "hold" ∈ (user_commands "p:" true true true false (fun _ => true)
        "o" "t" [] "hold" "u").1 := by
  constructor
  · exact (c8_label_toggle_amended "p:" true true true false
      (fun _ => true) "o" "t" [] "frobnicate" "u" (by decide)
      (by decide)).1 (by decide)
  · exact ((c8_label_toggle_amended "p:" true true true false
      (fun _ => true) "o" "t" [] "hold" "u" (by decide)
      (by decide)).2 (by decide) (by decide) (by decide)).2 (by decide)

/- ---------------- Helper lemmas: token masking ---------------- -/

lemma prefixOf_spec (l1 l2 : List Char) :
    l1.isPrefixOf l2 = true ↔ l1 <+: l2 := by
  simp

lemma infix_drop_star {t X : List Char} (hne : t ≠ [])
    (hstar : ∀ c ∈ t, c ≠ '*') :
    ∀ S : List Char, (∀ c ∈ S, c = '*') → t <:+: S ++ X → t <:+: X := by
  intro S
  induction S with
  | nil =>
    intro _ h
    simpa using h
  | cons s S2 ih =>
    intro hS h
    rw [List.cons_append] at h
    rcases List.infix_cons_iff.mp h with hpre | htail
    · obtain ⟨a, t2, rfl⟩ := List.exists_cons_of_ne_nil hne
      obtain ⟨ha, -⟩ := List.cons_prefix_cons.mp hpre
      exact absurd (ha.trans (hS s (by simp))) (hstar a (by simp))
    · exact ih (fun c hc => hS c (by simp [hc])) htail

lemma pyReplace_nil {T : List Char} (hT : T ≠ []) :
    pyReplace T "*****".data ([] : List Char) = [] := by
  rw [pyReplace]
  rw [if_neg hT]

lemma star_free_prefix_in_replace {T : List Char} (hT : T ≠ []) :
    ∀ (n : Nat) (m t : List Char), m.length ≤ n → t ≠ [] →
      (∀ c ∈ t, c ≠ '*') →
      t <+: pyReplace T "*****".data m → t <+: m := by
  intro n
  induction n with
  | zero =>
    intro m t hlen hne hstar hpre
    have hm : m = [] := List.length_eq_zero.mp (Nat.le_zero.mp hlen)
    subst hm
    rw [pyReplace_nil hT] at hpre
    exact absurd (List.prefix_nil.mp hpre) hne
  | succ n ih =>
    intro m t hlen hne hstar hpre
    cases m with
    | nil =>
      rw [pyReplace_nil hT] at hpre
      exact absurd (List.prefix_nil.mp hpre) hne
    | cons c rest =>
      rw [pyReplace] at hpre
      by_cases hp : T.isPrefixOf (c :: rest) = true
      · rw [dif_pos ⟨hT, hp⟩] at hpre
        obtain ⟨a, t2, rfl⟩ := List.exists_cons_of_ne_nil hne
        rw [show ("*****".data ++ pyReplace T "*****".data
            ((c :: rest).drop T.length)) = '*' ::
            ("****".data ++ pyReplace T "*****".data
              ((c :: rest).drop T.length)) from rfl] at hpre
        obtain ⟨ha, -⟩ := List.cons_prefix_cons.mp hpre
        exact absurd ha (hstar a (by simp))
      · rw [dif_neg (fun hand => hp hand.2), if_neg hT] at hpre
        obtain ⟨a, t2, rfl⟩ := List.exists_cons_of_ne_nil hne
        obtain ⟨ha, ht2⟩ := List.cons_prefix_cons.mp hpre
        subst ha
        by_cases ht2e : t2 = []
        · subst ht2e
          exact List.cons_prefix_cons.mpr ⟨rfl, List.nil_prefix⟩
        · have hrec := ih rest t2
            (by simp only [List.length_cons] at hlen; omega)
            ht2e (fun x hx => hstar x (by simp [hx])) ht2
          exact List.cons_prefix_cons.mpr ⟨rfl, hrec⟩

lemma replace_no_occurrence {T : List Char} (hT : T ≠ [])
    (hstar : ∀ c ∈ T, c ≠ '*') :
    ∀ (n : Nat) (m : List Char), m.length ≤ n →
      ¬ T <:+: pyReplace T "*****".data m := by
  intro n
  induction n with
  | zero =>
    intro m hlen hinf
    have hm : m = [] := List.length_eq_zero.mp (Nat.le_zero.mp hlen)
    subst hm
    rw [pyReplace_nil hT] at hinf
    exact hT (List.infix_nil.mp hinf)
  | succ n ih =>
    intro m hlen hinf
    cases m with
    | nil =>
      rw [pyReplace_nil hT] at hinf
      exact hT (List.infix_nil.mp hinf)
    | cons c rest =>
      rw [pyReplace] at hinf
      by_cases hp : T.isPrefixOf (c :: rest) = true
      · rw [dif_pos ⟨hT, hp⟩] at hinf
        have h2 := infix_drop_star hT hstar "*****".data (by decide) hinf
        have hlen2 : ((c :: rest).drop T.length).length ≤ n := by
          have hTpos : 0 < T.length := List.length_pos.mpr hT
          simp only [List.length_drop, List.length_cons] at hlen ⊢
          omega
        exact ih _ hlen2 h2
      · rw [dif_neg (fun hand => hp hand.2), if_neg hT] at hinf
        rcases List.infix_cons_iff.mp hinf with hpre | htail
        · obtain ⟨a, T2, hTeq⟩ := List.exists_cons_of_ne_nil hT
          set R := pyReplace T "*****".data rest with hR
          rw [hTeq] at hpre
          obtain ⟨ha, hT2⟩ := List.cons_prefix_cons.mp hpre
          by_cases hT2e : T2 = []
          · apply hp
            rw [prefixOf_spec, hTeq, hT2e, ha]
            exact List.cons_prefix_cons.mpr ⟨rfl, List.nil_prefix⟩
          · rw [hR] at hT2
            have hrec := star_free_prefix_in_replace hT n rest T2
              (by simp only [List.length_cons] at hlen; omega) hT2e
              (fun x hx => hstar x (by rw [hTeq]; simp [hx])) hT2
            apply hp
            rw [prefixOf_spec, hTeq, ha]
            exact List.cons_prefix_cons.mpr ⟨rfl, hrec⟩
        · exact ih rest
            (by simp only [List.length_cons] at hlen; omega) htail

/- ---------------- Claim C10 ---------------- -/

/-- Claim C10 is false as stated: for the token `*a` — non-empty and
not a substring of `*****` — masking the message `**aa` yields
`******a`, which contains the token again (the replacement inserts
`*` characters that recombine with remaining text), so the logged
message contains the token. -/
theorem c10_token_masking_counterexample :
    ("*a" : String).data ≠ [] ∧
    strIn "*a" "*****" = false ∧
    strIn "*a" (app_logger_info "*a" "**aa") = true := by
  refine ⟨by decide, by decide, ?_⟩
  have h : app_logger_info "*a" "**aa" = "******a" := by
    unfold app_logger_info hash_token pyReplaceStr
    rw [show pyReplace "*a".data "*****".data "**aa".data =
        "******a".data from by simp [pyReplace]]
  rw [h]
  decide

/-- Claim C10, amended: `hash_token` replaces every occurrence of the
configured token by `*****`; provided the token is non-empty and
contains no `*` character, no message emitted through app_logger_info
or app_logger_error contains the token. -/
theorem c10_token_masking_amended :
    ∀ (token message : String), token.data ≠ [] →
      (∀ c ∈ token.data, c ≠ '*') →
      strIn token (app_logger_info token message) = false ∧
      strIn token (app_logger_error token message) = false := by
  intro tok m hne hstar
  have h : ¬ tok.data <:+: (hash_token tok m).data :=
    replace_no_occurrence hne hstar m.data.length m.data le_rfl
  constructor
  · unfold strIn app_logger_info
    exact decide_eq_false h
  · unfold strIn app_logger_error
    exact decide_eq_false h

theorem c10_token_masking_witness :
    strIn "secret" (app_logger_info "secret" "my secret message") = false ∧
    strIn "secret" (app_logger_error "secret" "my secret message") = false :=
  c10_token_masking_amended "secret" "my secret message" (by decide)
    (by decide)
